/-
Verification of the connection-pool / client core of mcp-clickhouse.

This file gives a shallow embedding, in Lean 4, of the pool, connection and
client logic of `app/core/client/pool.py`, `app/core/client/connection.py`,
`app/core/client/formats.py` and of the caller-facing query tool of
`app/api/tools/query.py`, together with theorems about that embedding.

Modelling conventions:
* Python `time.time()` timestamps are modelled as integers (`Int`); only
  ordering and subtraction of timestamps matter to the code.
* Python exceptions are modelled by the inductive `PyError`, with one
  constructor per exception class the code manipulates.
* A `ClickHouseConnection` object is modelled by the structure `Conn`; its
  identity (Python object identity, used by `list.remove` and by "same
  connection instance" statements) is the `id` field, unique per creation.
* The blocking driver call inside `execute` is modelled by an explicit
  outcome parameter (`ok : Bool` / a result value): the embedding describes
  the state transformation the Python code performs around the driver call
  for each possible outcome of that call.
-/

import Mathlib

namespace McpClickhouse

/-- Python exceptions manipulated by the core: `clickhouse_driver.errors.Error`
(aliased `ClickHouseError` in `pool.py`), `ValueError`, and anything else. -/
inductive PyError where
  | clickhouseError (msg : String)
  | valueError (msg : String)
  | otherError (msg : String)
deriving DecidableEq, Repr

/-- The class test `retry_if_exception_type(ClickHouseError)` of the retry
decorators on `ClickHouseClient.execute` / `execute_with_format`
(pool.py lines 358-362, 400-404): an exception matches exactly when it is a
`ClickHouseError`.  This is also the class of every backend execution error
raised by the driver. -/
def isClickHouseError : PyError → Bool
  | .clickhouseError _ => true
  | _ => false

/-- Mutable state of one `ClickHouseConnection` (connection.py lines 77-79):
the session handle (`_client`, modelled by `connected`), the `_in_use` flag
and the `_last_used` timestamp.  `id` models Python object identity. -/
structure Conn where
  id : Nat
  connected : Bool
  inUse : Bool
  lastUsed : Int
deriving DecidableEq, Repr

/-- A freshly constructed connection after `ClickHouseConnection.__init__`
followed by `conn.connect()` (pool.py `_create_connection`, lines 101-122):
session established, `_in_use = False`, `_last_used = 0.0`.
(`connect` never touches `_last_used`.) -/
def freshConn (cid : Nat) : Conn :=
  { id := cid, connected := true, inUse := false, lastUsed := 0 }

/-- `conn.disconnect()` (connection.py lines 166-175): drops the session
handle unconditionally. -/
def disconnectConn (c : Conn) : Conn :=
  { c with connected := false }

/-- The release performed by the pool's `connection()` context manager on
exit (`conn._in_use = False`, pool.py line 192). -/
def clearInUse (c : Conn) : Conn :=
  { c with inUse := false }

/-- The context-manager release applied to the pool member with identity
`cid` (pool.py line 192 acting on the shared object). -/
def releaseConn (cid : Nat) (pool : List Conn) : List Conn :=
  pool.map (fun c => if c.id = cid then clearInUse c else c)

/-- State of a `ClickHouseConnectionPool` (pool.py lines 83-99): the member
list `_pool`, the `pool_size` cap and the `pool_recycle` threshold.
`nextId` supplies the identity of the next connection constructed. -/
structure PoolState where
  pool : List Conn
  poolSize : Nat
  poolRecycle : Int
  nextId : Nat
deriving DecidableEq, Repr

/-- Outcome of the `for conn in self._pool` scan of `get_connection`
(pool.py lines 136-147):
* `reuse c pool`: a free, non-stale member was found; it was marked in-use
  (the `return conn` at line 147); `pool` is the updated member list and
  `c` the returned connection.
* `stale removed pool`: the first free member was stale; it was
  disconnected and removed (`break` at line 143); `removed` is that
  (disconnected) object and `pool` the member list without it.
* `exhausted`: the loop finished without finding a free member. -/
inductive ScanResult where
  | reuse (c : Conn) (pool : List Conn)
  | stale (removed : Conn) (pool : List Conn)
  | exhausted
deriving DecidableEq, Repr

/-- The scan of pool.py lines 136-147.  The first member with
`not conn.is_in_use` is either recycled (`now - last_used > pool_recycle`:
disconnect, remove, `break`) or marked in-use and returned. -/
def scanPool (now recycle : Int) : List Conn → ScanResult
  | [] => .exhausted
  | c :: rest =>
    if c.inUse then
      match scanPool now recycle rest with
      | .reuse r pool => .reuse r (c :: pool)
      | .stale removed pool => .stale removed (c :: pool)
      | .exhausted => .exhausted
    else if now - c.lastUsed > recycle then
      .stale (disconnectConn c) rest
    else
      .reuse { c with inUse := true } ({ c with inUse := true } :: rest)

/-- Result of one call to `get_connection` (pool.py lines 124-175):
either a connection is returned together with the updated pool state, or
the call reaches the busy-wait loop of lines 170-175 (`blockedWait`),
polling until some member is released. -/
inductive GetOutcome where
  | returned (c : Conn) (s : PoolState)
  | blockedWait (s : PoolState)
deriving DecidableEq, Repr

/-- `ClickHouseConnectionPool.get_connection` (pool.py lines 124-175), up to
the point where it either returns a connection or enters the busy-wait
loop.  After a stale member is removed (`break`), control falls through to
the `len(self._pool) < self.pool_size` check of line 151, which then
creates a fresh connection. -/
def getConnection (now : Int) (s : PoolState) : GetOutcome :=
  match scanPool now s.poolRecycle s.pool with
  | .reuse c pool => .returned c { s with pool := pool }
  | .stale _ pool =>
    if pool.length < s.poolSize then
      .returned { freshConn s.nextId with inUse := true }
        { s with pool := pool ++ [{ freshConn s.nextId with inUse := true }],
                 nextId := s.nextId + 1 }
    else
      .blockedWait { s with pool := pool }
  | .exhausted =>
    if s.pool.length < s.poolSize then
      .returned { freshConn s.nextId with inUse := true }
        { s with pool := s.pool ++ [{ freshConn s.nextId with inUse := true }],
                 nextId := s.nextId + 1 }
    else
      .blockedWait s

/-- The inner scan of the busy-wait loop (pool.py lines 171-174): the first
member with `not conn.is_in_use` is marked in-use and returned — with no
staleness check.  `none` models another `asyncio.sleep(0.1)` round. -/
def waitScan : List Conn → Option (Conn × List Conn)
  | [] => none
  | c :: rest =>
    if c.inUse then
      (waitScan rest).map (fun rp => (rp.1, c :: rp.2))
    else
      some ({ c with inUse := true }, { c with inUse := true } :: rest)

/-- One wake-up of the busy-wait loop of `get_connection`
(pool.py lines 170-175), applied to the pool state current at that moment
(members may have been released since the call blocked). -/
def getConnectionResume (s : PoolState) : GetOutcome :=
  match waitScan s.pool with
  | some (c, pool) => .returned c { s with pool := pool }
  | none => .blockedWait s

/-- A Python value as it appears in a row dictionary; `null` is Python
`None`. -/
inductive Value where
  | int (n : Int)
  | str (s : String)
  | null
deriving DecidableEq, Repr

/-- A Python `Dict[str, Any]` row, with the keys in insertion order. -/
abbrev PyDict := List (String × Value)

/-- Python `row.get(col)` (pool.py line 569): the value under the key, or
`None` when the key is absent. -/
def dictGet (row : PyDict) (k : String) : Value :=
  match row.find? (fun kv => kv.1 == k) with
  | some kv => kv.2
  | none => Value.null

/-- Python `s.upper()` over the characters of a query string. -/
def upperChars (q : List Char) : List Char :=
  q.map Char.toUpper

/-- Python `s.lower()` over the characters of a format name. -/
def lowerChars (q : List Char) : List Char :=
  q.map Char.toLower

/-- `startsWith pat l` is true when `pat` is an initial segment of `l`. -/
def startsWith : List Char → List Char → Bool
  | [], _ => true
  | _ :: _, [] => false
  | p :: ps, c :: cs => p == c && startsWith ps cs

/-- Python substring containment `pat in l` over character lists. -/
def containsSeq (pat : List Char) : List Char → Bool
  | [] => startsWith pat []
  | c :: rest => startsWith pat (c :: rest) || containsSeq pat rest

/-- The guard `"FORMAT" in query.upper()` of
`ClickHouseConnection.execute_with_format` (connection.py line 253). -/
def hasFormatClause (q : List Char) : Bool :=
  containsSeq "FORMAT".data (upperChars q)

/-- The query rewrite of connection.py lines 253-254:
`query = f"{query} FORMAT {format_name.value}"` when the guard fails,
the query unchanged otherwise. -/
def addFormatClause (q fmtValue : List Char) : List Char :=
  if hasFormatClause q then q else q ++ " FORMAT ".data ++ fmtValue

/-- `ClickHouseConnection.execute` (connection.py lines 177-224), as a state
transformation of the connection for each possible behavior of the
underlying driver call.  `connectOk` scripts the lazy `connect()` of lines
200-201 (only consulted when no session exists; its failure raises before
`_in_use` is touched, the raised exception abstracted here); `attempt`
scripts the delegated `self._client.execute` call.  On success `_last_used`
is set (line 213); the `finally` of line 224 clears `_in_use` on both the
success and the failure path. -/
def connectionExecute (now : Int) (connectOk : Bool)
    (attempt : Except PyError (List (List Value))) (c : Conn) :
    Except PyError (List (List Value)) × Conn :=
  if !c.connected && !connectOk then
    (Except.error (PyError.otherError "connect failed"), c)
  else
    let c1 : Conn := { c with connected := true, inUse := true }
    match attempt with
    | .ok rows => (.ok rows, { c1 with lastUsed := now, inUse := false })
    | .error e => (.error e, { c1 with inUse := false })

/-- `ClickHouseConnection.execute_with_format` (connection.py lines
226-277): the FORMAT-clause rewrite of lines 253-254, then the same
flag/timestamp discipline as `execute`.  Returns the query text actually
sent alongside the result and the final connection state. -/
def connectionExecuteWithFormat (now : Int) (q fmtValue : List Char) (connectOk : Bool)
    (attempt : Except PyError (List Char)) (c : Conn) :
    List Char × Except PyError (List Char) × Conn :=
  if !c.connected && !connectOk then
    (q, Except.error (PyError.otherError "connect failed"), c)
  else
    let sent := addFormatClause q fmtValue
    let c1 : Conn := { c with connected := true, inUse := true }
    match attempt with
    | .ok text => (sent, .ok text, { c1 with lastUsed := now, inUse := false })
    | .error e => (sent, .error e, { c1 with inUse := false })

/-- `ClickHouseConnection.execute_iter` (connection.py lines 279-324), a
generator modelled as run to completion (full consumption or an exception
while streaming): `_last_used` is set only after the whole iteration
succeeds (line 314); the `finally` of line 324 clears `_in_use` on both
paths. -/
def connectionExecuteIter (now : Int) (connectOk : Bool)
    (attempt : Except PyError (List (List Value))) (c : Conn) :
    Except PyError (List (List Value)) × Conn :=
  if !c.connected && !connectOk then
    (Except.error (PyError.otherError "connect failed"), c)
  else
    let c1 : Conn := { c with connected := true, inUse := true }
    match attempt with
    | .ok rows => (.ok rows, { c1 with lastUsed := now, inUse := false })
    | .error e => (.error e, { c1 with inUse := false })

/-- The `stop_after_attempt(3)` cap of the retry decorators on
`ClickHouseClient.execute` / `execute_with_format` (pool.py lines 360,
402). -/
def stopAfterAttemptCap : Nat := 3

/-- Modelled from the spec: the wait of tenacity's
`wait_exponential(multiplier=1, min=1, max=10)` (pool.py lines 361, 403)
after the `n`-th attempt fails — exponential backoff with base multiplier
1, clamped to the floor of 1 second and the ceiling of 10 seconds.  The
tenacity library itself is an external dependency, not part of this
repository; only its parameters appear in the source. -/
def retryWaitSeconds (n : Nat) : Int :=
  max 1 (min (1 * 2 ^ n) 10)

/-- Modelled from the spec: the retry loop that tenacity's `@retry(...)`
decorator wraps around `ClickHouseClient.execute` / `execute_with_format`
(pool.py lines 358-362, 400-404).  `attempts i` scripts the outcome of the
`i`-th (0-based) delegated call; `made` counts attempts already made and
`fuel` the attempts still allowed.  A failed attempt is retried — after the
backoff wait — exactly when its exception satisfies
`retry_if_exception_type(ClickHouseError)` and the attempt cap is not yet
reached; otherwise the outcome (result or exception) propagates.
Returns (attempts made, waits slept, final outcome). -/
def retryGo {α : Type} (attempts : Nat → Except PyError α) (made : Nat) :
    Nat → Nat × List Int × Except PyError α
  | 0 => (made, [], Except.error (PyError.otherError "retry fuel exhausted"))
  | 1 => (made + 1, [], attempts made)
  | fuel + 2 =>
    match attempts made with
    | .ok v => (made + 1, [], .ok v)
    | .error e =>
      if isClickHouseError e then
        let rest := retryGo attempts (made + 1) (fuel + 1)
        (rest.1, retryWaitSeconds (made + 1) :: rest.2.1, rest.2.2)
      else
        (made + 1, [], .error e)

/-- The retry policy of `ClickHouseClient.execute` /
`execute_with_format`: up to `stop_after_attempt(3)` attempts. -/
def clientRetryPolicy {α : Type} (attempts : Nat → Except PyError α) :
    Nat × List Int × Except PyError α :=
  retryGo attempts 0 stopAfterAttemptCap

/-- Python `database or self.database` (pool.py lines 479, 561): the
explicit argument unless it is absent or falsy (the empty string). -/
def resolveDb (database : Option String) (clientDb : String) : String :=
  match database with
  | none => clientDb
  | some d => if d = "" then clientDb else d

/-- The one parameterized bulk INSERT statement `insert_data` executes
(pool.py lines 578-586): target table, column list and per-row value
lists. -/
structure InsertQuery where
  database : String
  table : String
  columns : List String
  values : List (List Value)
deriving DecidableEq, Repr

/-- The dictionary `insert_data` returns (pool.py lines 554-559,
588-592). -/
structure InsertResult where
  database : String
  table : String
  rowsInserted : Nat
deriving DecidableEq, Repr

/-- The observable effects of one `insert_data` call: how many connections
were checked out of the pool and which INSERT statements were executed. -/
structure InsertEffects where
  acquiredConnections : Nat
  queries : List InsertQuery
deriving DecidableEq, Repr

/-- `ClickHouseClient.insert_data` (pool.py lines 533-592).  Empty `data`
returns `rows_inserted = 0` before any connection or query (lines
554-559).  Otherwise the column list is the first row's keys in insertion
order (line 564), each row's values are `row.get(col)` per those columns
(lines 567-569), and exactly one INSERT is executed through one pooled
connection (lines 578-586). -/
def insertData (clientDb : String) (table : String) (data : List PyDict)
    (database : Option String) : InsertEffects × InsertResult :=
  match data with
  | [] =>
    (⟨0, []⟩, ⟨resolveDb database clientDb, table, 0⟩)
  | first :: _ =>
    let db := resolveDb database clientDb
    let columns := first.map Prod.fst
    let values := data.map (fun row => columns.map (dictGet row))
    (⟨1, [⟨db, table, columns, values⟩]⟩, ⟨db, table, data.length⟩)

/-- One row of the `DESCRIBE TABLE` result consumed by `get_table_schema`
(pool.py lines 506-517): name, type, default kind, default expression,
comment, codec expression, ttl expression. -/
structure DescRow where
  name : String
  type : String
  defaultType : String
  defaultExpression : String
  comment : String
  codecExpression : String
  ttlExpression : String
deriving DecidableEq, Repr

/-- One row of the `system.tables` catalog query of `get_table_schema`
(pool.py lines 488-499, unpacked at line 520). -/
structure TableInfoRow where
  engine : String
  createTableQuery : String
  totalRows : Int
  totalBytes : Int
  comment : String
deriving DecidableEq, Repr

/-- The schema record assembled by `get_table_schema` (pool.py lines
522-531). -/
structure TableSchema where
  database : String
  table : String
  engine : String
  createTableQuery : String
  totalRows : Int
  totalBytes : Int
  comment : String
  columns : List DescRow
deriving DecidableEq, Repr

/-- `ClickHouseClient.get_table_schema` (pool.py lines 464-531), given the
result of the `DESCRIBE TABLE` query (a (rows, column-types) pair, since it
is run `with_column_types=True`) and of the `system.tables` catalog query.
When the catalog query returns zero rows it raises
`ClickHouseError(f"Table {db}.{table} does not exist")` (lines 501-502) —
the generic driver error class. -/
def getTableSchema (clientDb : String) (table : String) (database : Option String)
    (columnsResult : List DescRow × List (String × String))
    (tableResult : List TableInfoRow) : Except PyError TableSchema :=
  let db := resolveDb database clientDb
  match tableResult with
  | [] =>
    Except.error (PyError.clickhouseError
      ("Table " ++ db ++ "." ++ table ++ " does not exist"))
  | info :: _ =>
    Except.ok
      { database := db
        table := table
        engine := info.engine
        createTableQuery := info.createTableQuery
        totalRows := info.totalRows
        totalBytes := info.totalBytes
        comment := info.comment
        columns := columnsResult.1 }

/-- The `ResultFormat` string enum (formats.py lines 17-28). -/
inductive ResultFormat where
  | json
  | jsonCompact
  | pretty
  | csv
  | tsv
  | parquet
  | arrow
  | native
  | null
deriving DecidableEq, Repr

/-- The string value of each `ResultFormat` member (formats.py lines
20-28). -/
def ResultFormat.value : ResultFormat → List Char
  | .json => "json".data
  | .jsonCompact => "JSONCompact".data
  | .pretty => "Pretty".data
  | .csv => "CSV".data
  | .tsv => "TSV".data
  | .parquet => "Parquet".data
  | .arrow => "Arrow".data
  | .native => "Native".data
  | .null => "Null".data

/-- The members of `ResultFormat`, in declaration order. -/
def resultFormatMembers : List ResultFormat :=
  [.json, .jsonCompact, .pretty, .csv, .tsv, .parquet, .arrow, .native, .null]

/-- Python's by-value enum lookup `ResultFormat(s)`: the member whose
`value` equals `s` exactly, if any. -/
def resultFormatOfValue (s : List Char) : Option ResultFormat :=
  resultFormatMembers.find? (fun f => f.value == s)

/-- The format validation of the `query` tool (query.py lines 100-104):
`ResultFormat(format.lower())`, falling back to `ResultFormat.JSON` with a
warning when the lookup raises `ValueError`. -/
def parseQueryFormat (format : List Char) : ResultFormat :=
  match resultFormatOfValue (lowerChars format) with
  | some f => f
  | none => ResultFormat.json

/-- The per-row reshaping of the JSON branch of the `query` tool (query.py
lines 125-129): `dict(zip(columns, row))` with `columns` the first
components of the column metadata; note Python's `zip` truncates to the
shorter side. -/
def reshapeJsonRows (rows : List (List Value)) (cols : List (String × String)) :
    List PyDict :=
  rows.map (fun row => (cols.map Prod.fst).zip row)

/-- The shape of `result_data` returned by the `query` tool (query.py
lines 107-129): the already-formatted text of the PRETTY branch, the
reshaped per-row dictionaries of the JSON branch, or the untouched
(rows, column-metadata) pair of every other branch. -/
inductive QueryResultData where
  | formattedText (text : List Char)
  | reshapedRows (rows : List PyDict)
  | rawWithTypes (rows : List (List Value)) (cols : List (String × String))
deriving DecidableEq, Repr

/-- The dispatch of the `query` tool (query.py lines 98-129), given the
caller's format name and the backend responses: `prettyText` scripts what
`execute_with_format` would return, and `(rows, cols)` scripts what
`execute(..., with_column_types=True)` would return. -/
def queryToolResult (format : List Char) (prettyText : List Char)
    (rows : List (List Value)) (cols : List (String × String)) : QueryResultData :=
  let rf := parseQueryFormat format
  if rf = ResultFormat.pretty then
    .formattedText prettyText
  else if rf = ResultFormat.json then
    .reshapedRows (reshapeJsonRows rows cols)
  else
    .rawWithTypes rows cols

/-- `ClickHouseConnectionPool.execute` seen from inside the scope of the
`connection()` context manager (pool.py lines 217-227): the effect of the
delegated `conn.execute` on the pool member with identity `cid`, before the
context manager's release has run. -/
def poolConnExecute (cid : Nat) (now : Int)
    (attempt : Except PyError (List (List Value))) (pool : List Conn) : List Conn :=
  pool.map (fun c => if c.id = cid then (connectionExecute now true attempt c).2 else c)

/-! ### Helper lemmas about the pool scan -/

theorem scanPool_reuse_spec {now recycle : Int} :
    ∀ {pool : List Conn} {c : Conn} {pool' : List Conn},
      scanPool now recycle pool = .reuse c pool' →
      pool'.length = pool.length ∧ c.inUse = true ∧ now - c.lastUsed ≤ recycle ∧
      ∃ c₀ ∈ pool, c₀.inUse = false ∧ c = { c₀ with inUse := true } := by
  intro pool
  induction pool with
  | nil => intro c pool' h; simp [scanPool] at h
  | cons a rest ih =>
    intro c pool' h
    rw [scanPool] at h
    split at h
    · cases hrec : scanPool now recycle rest with
      | reuse r p =>
        rw [hrec] at h
        cases h
        obtain ⟨hlen, huse, hfresh, c₀, hc₀, hfree, heq⟩ := ih hrec
        exact ⟨by simp [hlen], huse, hfresh, c₀, by simp [hc₀], hfree, heq⟩
      | stale rem p => rw [hrec] at h; cases h
      | exhausted => rw [hrec] at h; cases h
    · split at h
      · cases h
      · cases h
        rename_i huse hstale
        refine ⟨rfl, rfl, show now - a.lastUsed ≤ recycle by omega, a, by simp,
          by simpa using huse, rfl⟩

theorem scanPool_stale_spec {now recycle : Int} :
    ∀ {pool : List Conn} {rem : Conn} {pool' : List Conn},
      scanPool now recycle pool = .stale rem pool' →
      pool'.length + 1 = pool.length ∧ rem.connected = false ∧
      now - rem.lastUsed > recycle := by
  intro pool
  induction pool with
  | nil => intro rem pool' h; simp [scanPool] at h
  | cons a rest ih =>
    intro rem pool' h
    rw [scanPool] at h
    split at h
    · cases hrec : scanPool now recycle rest with
      | reuse r p => rw [hrec] at h; cases h
      | stale r p =>
        rw [hrec] at h
        cases h
        obtain ⟨hlen, hconn, hst⟩ := ih hrec
        exact ⟨by simp [← hlen], hconn, hst⟩
      | exhausted => rw [hrec] at h; cases h
    · split at h
      · cases h
        rename_i huse hstale
        exact ⟨rfl, rfl, hstale⟩
      · cases h

theorem scanPool_exhausted_of_all_inUse {now recycle : Int} :
    ∀ {pool : List Conn}, (∀ c ∈ pool, c.inUse = true) →
      scanPool now recycle pool = .exhausted := by
  intro pool
  induction pool with
  | nil => intro _; rfl
  | cons a rest ih =>
    intro h
    rw [scanPool]
    have ha : a.inUse = true := h a (by simp)
    rw [if_pos ha, ih (fun c hc => h c (by simp [hc]))]

theorem waitScan_eq_none_iff :
    ∀ (pool : List Conn), waitScan pool = none ↔ ∀ c ∈ pool, c.inUse = true := by
  intro pool
  induction pool with
  | nil => simp [waitScan]
  | cons a rest ih =>
    rw [waitScan]
    by_cases ha : a.inUse
    · simp [ha, Option.map_eq_none', ih]
    · simp [ha, List.forall_mem_cons]

theorem waitScan_isSome_of_free {pool : List Conn} {c : Conn}
    (hc : c ∈ pool) (hfree : c.inUse = false) : (waitScan pool).isSome = true := by
  cases hw : waitScan pool with
  | some p => rfl
  | none =>
    have := (waitScan_eq_none_iff pool).mp hw c hc
    rw [hfree] at this
    cases this

/-! ### Helper lemmas about substring containment -/

theorem startsWith_append {pat x : List Char} (y : List Char)
    (h : startsWith pat x = true) : startsWith pat (x ++ y) = true := by
  induction pat generalizing x with
  | nil => rfl
  | cons p ps ih =>
    cases x with
    | nil => simp [startsWith] at h
    | cons c cs =>
      rw [List.cons_append, startsWith]
      rw [startsWith] at h
      simp only [Bool.and_eq_true] at h ⊢
      exact ⟨h.1, ih h.2⟩

theorem containsSeq_nil_pat : ∀ (l : List Char), containsSeq [] l = true
  | [] => rfl
  | _ :: _ => by rw [containsSeq]; simp [startsWith]

theorem containsSeq_append_left {pat x : List Char} (y : List Char)
    (h : containsSeq pat x = true) : containsSeq pat (x ++ y) = true := by
  induction x with
  | nil =>
    cases pat with
    | nil => simpa using containsSeq_nil_pat y
    | cons p ps => simp [containsSeq, startsWith] at h
  | cons c cs ih =>
    rw [containsSeq] at h
    rw [List.cons_append, containsSeq]
    simp only [Bool.or_eq_true] at h ⊢
    rcases h with h | h
    · exact Or.inl (by simpa using startsWith_append (y := y) (by simpa using h))
    · exact Or.inr (ih h)

theorem containsSeq_append_right {pat : List Char} (x : List Char) {y : List Char}
    (h : containsSeq pat y = true) : containsSeq pat (x ++ y) = true := by
  induction x with
  | nil => simpa using h
  | cons c cs ih =>
    rw [List.cons_append, containsSeq]
    simp only [Bool.or_eq_true]
    exact Or.inr ih

theorem hasFormatClause_append_mid (q v : List Char) :
    hasFormatClause (q ++ " FORMAT ".data ++ v) = true := by
  rw [hasFormatClause, upperChars, List.append_assoc, List.map_append]
  refine containsSeq_append_right _ ?_
  rw [List.map_append]
  refine containsSeq_append_left _ ?_
  decide

/-! ### Claim theorems -/

/-- **C1.** The claim states that a connection handed out by
`get_connection` keeps `in_use = True` until the context-manager release,
even across intervening `Connection.execute` calls, so that no second
`get_connection` can return the same instance before that release.  The
code violates this: `Connection.execute`'s `finally` clears `_in_use`
(connection.py line 224) while the connection is still checked out.  This
theorem evaluates the embedded code on the failing trace: `pool_size = 1`;
a caller checks connection id 0 out at time 1000 (`in_use` becomes true);
its `conn.execute` completes at time 1001, after which `in_use` is false
although the context manager has not released (no `releaseConn` occurs);
a second `get_connection` at time 1002 then returns the very same
connection id 0. -/
theorem pool_double_handout_after_execute :
    getConnection 1000 ⟨[], 1, 3600, 0⟩ =
      .returned ⟨0, true, true, 0⟩ ⟨[⟨0, true, true, 0⟩], 1, 3600, 1⟩ ∧
    poolConnExecute 0 1001 (.ok []) [⟨0, true, true, 0⟩] = [⟨0, true, false, 1001⟩] ∧
    getConnection 1002 ⟨[⟨0, true, false, 1001⟩], 1, 3600, 1⟩ =
      .returned ⟨0, true, true, 1001⟩ ⟨[⟨0, true, true, 1001⟩], 1, 3600, 1⟩ := by
  decide

/-- **C5.** After `Connection.execute`, `execute_with_format` or
`execute_iter` exits — normal return or exception — the connection's
`in_use` flag is false, and clearing the flag is idempotent.  The
hypothesis `c.inUse = false ∨ c.connected = true` states the pre-states
these methods are actually called in (a pool member is always connected; a
directly used connection starts with `in_use` false): it covers the one
path (a failing lazy `connect()`) that exits before the `try`/`finally` is
entered. -/
theorem execute_clears_in_use_on_all_paths :
    (∀ (now : Int) (connectOk : Bool) (attempt : Except PyError (List (List Value))) (c : Conn),
      c.inUse = false ∨ c.connected = true →
      (connectionExecute now connectOk attempt c).2.inUse = false) ∧
    (∀ (now : Int) (q v : List Char) (connectOk : Bool)
        (attempt : Except PyError (List Char)) (c : Conn),
      c.inUse = false ∨ c.connected = true →
      (connectionExecuteWithFormat now q v connectOk attempt c).2.2.inUse = false) ∧
    (∀ (now : Int) (connectOk : Bool) (attempt : Except PyError (List (List Value))) (c : Conn),
      c.inUse = false ∨ c.connected = true →
      (connectionExecuteIter now connectOk attempt c).2.inUse = false) ∧
    (∀ c : Conn, clearInUse (clearInUse c) = clearInUse c) := by
  refine ⟨?_, ?_, ?_, fun _ => rfl⟩
  · intro now connectOk attempt c hc
    rw [connectionExecute]
    split
    · rename_i h
      rcases hc with hc | hc
      · exact hc
      · rw [hc] at h; simp at h
    · cases attempt <;> rfl
  · intro now q v connectOk attempt c hc
    rw [connectionExecuteWithFormat]
    split
    · rename_i h
      rcases hc with hc | hc
      · exact hc
      · rw [hc] at h; simp at h
    · cases attempt <;> rfl
  · intro now connectOk attempt c hc
    rw [connectionExecuteIter]
    split
    · rename_i h
      rcases hc with hc | hc
      · exact hc
      · rw [hc] at h; simp at h
    · cases attempt <;> rfl

/-- Witness for C5: the guarantee evaluated on a checked-out, connected
connection, for a successful and for a failing attempt. -/
theorem execute_clears_in_use_on_all_paths_witness :
    ((⟨0, true, true, 0⟩ : Conn).inUse = false ∨ (⟨0, true, true, 0⟩ : Conn).connected = true) ∧
    (connectionExecute 5 true (.ok []) ⟨0, true, true, 0⟩).2.inUse = false ∧
    (connectionExecute 5 true (.error (PyError.clickhouseError "boom"))
      ⟨0, true, true, 0⟩).2.inUse = false :=
  ⟨Or.inr rfl,
   execute_clears_in_use_on_all_paths.1 5 true (.ok []) ⟨0, true, true, 0⟩ (Or.inr rfl),
   execute_clears_in_use_on_all_paths.1 5 true (.error (PyError.clickhouseError "boom"))
     ⟨0, true, true, 0⟩ (Or.inr rfl)⟩

/-- **C7 (counterexample).** The claim states that `get_table_schema`
fails with a NotFound-style condition *distinct from a generic backend
execution error* when the catalog query returns zero rows.  In the code
(pool.py line 502) the raise is a plain `ClickHouseError` — the very
driver error class backend execution failures carry and the class the
retry policy's `retry_if_exception_type(ClickHouseError)` matches — so the
condition is distinguishable only by its message text, not by its class. -/
theorem table_not_found_is_generic_clickhouse_error :
    getTableSchema "d" "no_such_table" none ([], []) [] =
      Except.error (PyError.clickhouseError "Table d.no_such_table does not exist") ∧
    isClickHouseError (PyError.clickhouseError "Table d.no_such_table does not exist") = true :=
  ⟨rfl, rfl⟩

/-- **C7 (amended).** When the `system.tables` catalog query inside
`get_table_schema` returns zero rows, the call fails by raising the
generic `ClickHouseError` class with the descriptive message
`"Table <db>.<table> does not exist"`; the not-found condition is
signalled by the message text only, not by a distinct error class. -/
theorem table_not_found_raises_clickhouse_error_message :
    ∀ (clientDb table : String) (database : Option String)
      (columnsResult : List DescRow × List (String × String)),
      getTableSchema clientDb table database columnsResult [] =
        Except.error (PyError.clickhouseError
          ("Table " ++ resolveDb database clientDb ++ "." ++ table ++ " does not exist")) ∧
      isClickHouseError (PyError.clickhouseError
        ("Table " ++ resolveDb database clientDb ++ "." ++ table ++ " does not exist")) = true :=
  fun _ _ _ _ => ⟨rfl, rfl⟩

/-- **C8.** The claim (and the tool's own docstring, query.py line 84)
says the recognized non-JSON format names — the pretty table, CSV, TSV —
pass the backend's serialization through untouched.  The code cannot do
this: `ResultFormat(format.lower())` (query.py line 101) lowercases the
caller's name and then looks it up by exact enum value, but every enum
value except `"json"` contains an uppercase letter, so the lookup fails
for every such name, warns, and falls back to JSON — whose branch reshapes
the rows.  Evaluated here at the failing inputs: `"Pretty"` is literally a
member value of `ResultFormat`, yet it parses to the JSON format and the
tool reshapes the rows instead of passing the formatted text through; the
lowercase spellings `"pretty"`, `"csv"`, `"tsv"` from the docstring fare
the same. -/
theorem query_format_lookup_rejects_recognized_names :
    ResultFormat.pretty ∈ resultFormatMembers ∧
    ResultFormat.pretty.value = "Pretty".data ∧
    parseQueryFormat "Pretty".data = ResultFormat.json ∧
    parseQueryFormat "pretty".data = ResultFormat.json ∧
    parseQueryFormat "csv".data = ResultFormat.json ∧
    parseQueryFormat "tsv".data = ResultFormat.json ∧
    parseQueryFormat "CSV".data = ResultFormat.json ∧
    queryToolResult "Pretty".data "a formatted table".data
        [[Value.int 1]] [("x", "Int64")] =
      QueryResultData.reshapedRows [[("x", Value.int 1)]] := by
  decide

/-- **C9.** `execute_with_format` appends the `" FORMAT <name>"` directive
exactly when the text `"FORMAT"` does not already occur case-insensitively
in the query (connection.py lines 253-254), and the injection is
idempotent: applied to a query that already carries the directive it
leaves the text unchanged. -/
theorem format_clause_injection_iff_and_idempotent :
    ∀ (q fmtValue : List Char),
      (addFormatClause q fmtValue = q ↔ hasFormatClause q = true) ∧
      addFormatClause (addFormatClause q fmtValue) fmtValue = addFormatClause q fmtValue := by
  intro q v
  constructor
  · constructor
    · intro h
      by_cases hf : hasFormatClause q = true
      · exact hf
      · rw [addFormatClause, if_neg hf] at h
        have hlen := congrArg List.length h
        have h8 : (" FORMAT ".data).length = 8 := by decide
        simp only [List.length_append, h8] at hlen
        omega
    · intro h
      rw [addFormatClause, if_pos h]
  · by_cases hf : hasFormatClause q = true
    · simp [addFormatClause, hf]
    · have hin : addFormatClause q v = q ++ " FORMAT ".data ++ v := by
        rw [addFormatClause, if_neg hf]
      rw [hin, addFormatClause, if_pos (hasFormatClause_append_mid q v)]

/-- **C4.** The retry policy wrapped around `ClickHouseClient.execute` /
`execute_with_format` retries only exceptions matching
`retry_if_exception_type(ClickHouseError)`: when every attempt fails with
such an error, exactly 3 attempts are made (`stop_after_attempt(3)`), the
two backoff waits follow `wait_exponential(multiplier=1, min=1, max=10)`,
and the final attempt's error is re-raised; when the first attempt fails
with a non-matching error, exactly 1 attempt is made and that error
propagates with no waits. -/
theorem client_retry_attempt_counts :
    (∀ (attempts : Nat → Except PyError (List (List Value))),
      (∀ i, i < stopAfterAttemptCap →
        ∃ m, attempts i = .error (PyError.clickhouseError m)) →
      clientRetryPolicy attempts =
        (3, [retryWaitSeconds 1, retryWaitSeconds 2], attempts 2)) ∧
    (∀ (attempts : Nat → Except PyError (List (List Value))) (e : PyError),
      attempts 0 = .error e → isClickHouseError e = false →
      clientRetryPolicy attempts = (1, [], .error e)) := by
  constructor
  · intro attempts h
    obtain ⟨m0, h0⟩ := h 0 (by decide)
    obtain ⟨m1, h1⟩ := h 1 (by decide)
    obtain ⟨m2, h2⟩ := h 2 (by decide)
    show retryGo attempts 0 3 = _
    rw [show (3 : Nat) = 2 + 1 from rfl, retryGo, h0]
    simp only [isClickHouseError, Bool.true_and, ite_true, Nat.add_eq, Nat.zero_add]
    rw [show (2 : Nat) = 1 + 1 from rfl, retryGo, h1]
    simp only [isClickHouseError, Bool.true_and, ite_true, Nat.add_eq]
    rw [show (1 : Nat) = 0 + 1 from rfl, retryGo, h2]
  · intro attempts e h0 he
    show retryGo attempts 0 3 = _
    rw [show (3 : Nat) = 2 + 1 from rfl, retryGo, h0]
    simp [he]

/-- Witness for C4: three attempts and the `[2, 4]`-second backoff when
every attempt raises a `ClickHouseError`; a single attempt when the first
failure is a `ValueError`. -/
theorem client_retry_attempt_counts_witness :
    clientRetryPolicy
        (fun _ => (Except.error (PyError.clickhouseError "boom") :
          Except PyError (List (List Value)))) =
      (3, [retryWaitSeconds 1, retryWaitSeconds 2],
        Except.error (PyError.clickhouseError "boom")) ∧
    clientRetryPolicy
        (fun _ => (Except.error (PyError.valueError "bad") :
          Except PyError (List (List Value)))) =
      (1, [], Except.error (PyError.valueError "bad")) :=
  ⟨client_retry_attempt_counts.1 _ (fun _ _ => ⟨"boom", rfl⟩),
   client_retry_attempt_counts.2 _ _ rfl rfl⟩

/-- **C6.** `insert_data` with empty `rows` checks out no connection,
executes no query, and reports `rows_inserted = 0`; with non-empty `rows`
the column list is the first row's keys in insertion order, each row's
values are `row.get(col)` over exactly those columns (so keys missing from
a row become the null placeholder and keys absent from the first row are
dropped), exactly one bulk INSERT is executed over one pooled connection,
and `rows_inserted` is the number of input rows. -/
theorem insert_data_columns_and_count :
    (∀ (clientDb table : String) (database : Option String),
      (insertData clientDb table [] database).1 = ⟨0, []⟩ ∧
      (insertData clientDb table [] database).2.rowsInserted = 0) ∧
    (∀ (clientDb table : String) (database : Option String)
        (first : PyDict) (rest : List PyDict),
      (insertData clientDb table (first :: rest) database).1 =
        ⟨1, [⟨resolveDb database clientDb, table, first.map Prod.fst,
              (first :: rest).map (fun row => (first.map Prod.fst).map (dictGet row))⟩]⟩ ∧
      (insertData clientDb table (first :: rest) database).2.rowsInserted =
        (first :: rest).length) ∧
    (∀ (row : PyDict) (k : String),
      (∀ kv ∈ row, kv.1 ≠ k) → dictGet row k = Value.null) := by
  refine ⟨fun _ _ _ => ⟨rfl, rfl⟩, fun _ _ _ _ _ => ⟨rfl, rfl⟩, ?_⟩
  intro row k h
  have hnone : row.find? (fun kv => kv.1 == k) = none :=
    List.find?_eq_none.mpr (fun kv hkv => by simpa using h kv hkv)
  rw [dictGet, hnone]

/-- Witness for C6, at the spec's own example: inserting
`[{"a": 1, "b": 2}, {"a": 3}]` executes one INSERT with columns
`["a", "b"]` and a null placeholder for row 2's `"b"`; inserting `[]`
reports zero rows inserted. -/
theorem insert_data_columns_and_count_witness :
    (insertData "d" "t" [[("a", Value.int 1), ("b", Value.int 2)],
        [("a", Value.int 3)]] none).1 =
      ⟨1, [⟨"d", "t", ["a", "b"],
            [[Value.int 1, Value.int 2], [Value.int 3, Value.null]]⟩]⟩ ∧
    (insertData "d" "t" [] none).2.rowsInserted = 0 ∧
    dictGet [("a", Value.int 3)] "b" = Value.null :=
  ⟨((insert_data_columns_and_count.2.1 "d" "t" none
      [("a", Value.int 1), ("b", Value.int 2)] [[("a", Value.int 3)]]).1).trans (by decide),
   (insert_data_columns_and_count.1 "d" "t" none).2,
   insert_data_columns_and_count.2.2 [("a", Value.int 3)] "b" (by decide)⟩

/-- **C2.** The pool's member list never exceeds `pool_size`
(`get_connection` preserves the bound on every outcome), and when the pool
is at capacity with every member in use, `get_connection` does not return:
it reaches the busy-wait loop (`blockedWait`), whose scan finds nothing
while all members are held and finds a member as soon as one is
released. -/
theorem pool_capacity_bound_and_blocking :
    (∀ (now : Int) (s : PoolState) (c : Conn) (s' : PoolState),
      s.pool.length ≤ s.poolSize → getConnection now s = .returned c s' →
      s'.pool.length ≤ s'.poolSize) ∧
    (∀ (now : Int) (s : PoolState) (s' : PoolState),
      s.pool.length ≤ s.poolSize → getConnection now s = .blockedWait s' →
      s'.pool.length ≤ s'.poolSize) ∧
    (∀ (now : Int) (s : PoolState),
      s.pool.length = s.poolSize → (∀ c ∈ s.pool, c.inUse = true) →
      getConnection now s = .blockedWait s ∧ waitScan s.pool = none) ∧
    (∀ (pool : List Conn) (cid : Nat) (c : Conn), c ∈ pool → c.id = cid →
      (waitScan (releaseConn cid pool)).isSome = true) := by
  refine ⟨?_, ?_, ?_, ?_⟩
  · intro now s c s' hle hret
    rw [getConnection] at hret
    split at hret
    · rename_i c₀ pool heq
      cases hret
      have hlen := (scanPool_reuse_spec heq).1
      simpa [hlen] using hle
    · rename_i rem pool heq
      have hlen := (scanPool_stale_spec heq).1
      split at hret
      · rename_i hlt
        cases hret
        show (pool ++ [_]).length ≤ s.poolSize
        rw [List.length_append]
        simpa using hlt
      · cases hret
    · rename_i heq
      split at hret
      · rename_i hlt
        cases hret
        show (s.pool ++ [_]).length ≤ s.poolSize
        rw [List.length_append]
        simpa using hlt
      · cases hret
  · intro now s s' hle hret
    rw [getConnection] at hret
    split at hret
    · cases hret
    · rename_i rem pool heq
      have hlen := (scanPool_stale_spec heq).1
      split at hret
      · cases hret
      · cases hret
        show pool.length ≤ s.poolSize
        omega
    · split at hret
      · cases hret
      · cases hret
        exact hle
  · intro now s hlen hall
    constructor
    · rw [getConnection, scanPool_exhausted_of_all_inUse hall, hlen]
      simp
    · exact (waitScan_eq_none_iff s.pool).mpr hall
  · intro pool cid c hc hid
    have hmem : clearInUse c ∈ releaseConn cid pool := by
      rw [releaseConn]
      refine List.mem_map.mpr ⟨c, hc, ?_⟩
      rw [if_pos hid]
    exact waitScan_isSome_of_free hmem rfl

/-- Witness for C2: with `pool_size = 1` and the single member held, the
bound holds after a handout, a further acquisition blocks and its wait
scan finds nothing, and the scan finds the member once it is released. -/
theorem pool_capacity_bound_and_blocking_witness :
    ((⟨[⟨0, true, true, 0⟩], 1, 3600, 1⟩ : PoolState).pool.length ≤
      (⟨[⟨0, true, true, 0⟩], 1, 3600, 1⟩ : PoolState).poolSize) ∧
    (getConnection 100 ⟨[⟨0, true, true, 0⟩], 1, 3600, 1⟩ =
        .blockedWait ⟨[⟨0, true, true, 0⟩], 1, 3600, 1⟩ ∧
      waitScan [⟨0, true, true, 0⟩] = none) ∧
    (waitScan (releaseConn 0 [⟨0, true, true, 0⟩])).isSome = true :=
  ⟨pool_capacity_bound_and_blocking.1 100 ⟨[], 1, 3600, 0⟩ ⟨0, true, true, 0⟩
      ⟨[⟨0, true, true, 0⟩], 1, 3600, 1⟩ (by decide) (by decide),
   pool_capacity_bound_and_blocking.2.2.1 100 ⟨[⟨0, true, true, 0⟩], 1, 3600, 1⟩
      (by decide) (by decide),
   pool_capacity_bound_and_blocking.2.2.2 [⟨0, true, true, 0⟩] 0 ⟨0, true, true, 0⟩
      (by decide) rfl⟩

/-- **C3 (counterexample).** Two behaviors of `get_connection` contradict
the claim.  (1) The busy-wait loop hands out connections without any
staleness check: with `pool_size = 1`, `pool_recycle = 10`, the single
member held with `last_used = 0`, a `get_connection` at time 100 blocks;
the holder then releases; the next wait-loop scan returns that member even
though its idle age `100 - 0` exceeds `pool_recycle`.  (2) The initial
scan does not "continue scanning the remaining candidates" after removing
a stale member: with members id 0 (free, stale) and id 1 (free, fresh),
the code removes id 0, `break`s out of the scan and creates a brand-new
connection id 2 — the non-stale candidate id 1 is not returned. -/
theorem wait_loop_returns_stale_connection :
    (getConnection 100 ⟨[⟨0, true, true, 0⟩], 1, 10, 1⟩ =
      .blockedWait ⟨[⟨0, true, true, 0⟩], 1, 10, 1⟩) ∧
    releaseConn 0 [⟨0, true, true, 0⟩] = [⟨0, true, false, 0⟩] ∧
    (getConnectionResume ⟨[⟨0, true, false, 0⟩], 1, 10, 1⟩ =
      .returned ⟨0, true, true, 0⟩ ⟨[⟨0, true, true, 0⟩], 1, 10, 1⟩) ∧
    ((100 : Int) - (0 : Int) > (10 : Int)) ∧
    (getConnection 100 ⟨[⟨0, true, false, 0⟩, ⟨1, true, false, 95⟩], 2, 10, 2⟩ =
      .returned ⟨2, true, true, 0⟩
        ⟨[⟨1, true, false, 95⟩, ⟨2, true, true, 0⟩], 2, 10, 3⟩) := by
  decide

/-- **C3 (amended).** The initial scan of `get_connection` never returns a
stale connection: a connection it reuses satisfies
`now - last_used ≤ pool_recycle`; on finding a stale idle member it
disconnects and removes it and stops scanning, after which (membership now
being strictly below capacity) a fresh connection is created and returned.
The busy-wait loop, by contrast, performs no staleness check: its scan
returns a member exactly when one is not in use, regardless of idle
age. -/
theorem stale_scan_removes_and_creates_fresh :
    (∀ (now recycle : Int) (pool : List Conn) (c : Conn) (pool' : List Conn),
      scanPool now recycle pool = .reuse c pool' → now - c.lastUsed ≤ recycle) ∧
    (∀ (now recycle : Int) (pool : List Conn) (rem : Conn) (pool' : List Conn),
      scanPool now recycle pool = .stale rem pool' →
      now - rem.lastUsed > recycle ∧ rem.connected = false ∧
      pool'.length + 1 = pool.length) ∧
    (∀ (now : Int) (s : PoolState) (rem : Conn) (pool' : List Conn),
      s.pool.length ≤ s.poolSize →
      scanPool now s.poolRecycle s.pool = .stale rem pool' →
      getConnection now s =
        .returned { freshConn s.nextId with inUse := true }
          { s with pool := pool' ++ [{ freshConn s.nextId with inUse := true }],
                   nextId := s.nextId + 1 }) ∧
    (∀ (pool : List Conn), waitScan pool = none ↔ ∀ c ∈ pool, c.inUse = true) := by
  refine ⟨?_, ?_, ?_, waitScan_eq_none_iff⟩
  · intro now recycle pool c pool' h
    exact (scanPool_reuse_spec h).2.2.1
  · intro now recycle pool rem pool' h
    obtain ⟨hlen, hconn, hstale⟩ := scanPool_stale_spec h
    exact ⟨hstale, hconn, hlen⟩
  · intro now s rem pool' hle hscan
    have hlen := (scanPool_stale_spec hscan).1
    have hlt : pool'.length < s.poolSize := by omega
    simp [getConnection, hscan, hlt]

/-- Witness for C3 (amended): a stale free member (idle age 100 over a
recycle threshold of 10) is removed and a fresh connection id 1 is
returned in its place; a reused member's idle age is within the threshold;
the wait-loop scan's success condition at a held member. -/
theorem stale_scan_removes_and_creates_fresh_witness :
    ((100 : Int) - (⟨0, true, true, 50⟩ : Conn).lastUsed ≤ 3600) ∧
    (getConnection 100 ⟨[⟨0, true, false, 0⟩], 1, 10, 1⟩ =
      .returned ⟨1, true, true, 0⟩ ⟨[⟨1, true, true, 0⟩], 1, 10, 2⟩) ∧
    (waitScan [⟨0, true, true, 0⟩] = none ↔
      ∀ c ∈ ([⟨0, true, true, 0⟩] : List Conn), c.inUse = true) :=
  ⟨stale_scan_removes_and_creates_fresh.1 100 3600 [⟨0, true, false, 50⟩]
      ⟨0, true, true, 50⟩ [⟨0, true, true, 50⟩] (by decide),
   stale_scan_removes_and_creates_fresh.2.2.1 100 ⟨[⟨0, true, false, 0⟩], 1, 10, 1⟩
      ⟨0, false, false, 0⟩ [] (by decide) (by decide),
   stale_scan_removes_and_creates_fresh.2.2.2 [⟨0, true, true, 0⟩]⟩

/-- **C10 (counterexample).** The claim says `last_used` is updated on
every completed execution attempt, successful or failed.  In the code the
update `self._last_used = time.time()` (connection.py line 213) sits on
the success path only; the exception path re-raises without touching it.
A failed attempt at time 100 on a connection with `last_used = 5` leaves
`last_used = 5`, while a successful one sets it to 100. -/
theorem failed_execute_leaves_last_used_unchanged :
    (connectionExecute 100 true (.error (PyError.clickhouseError "boom"))
        ⟨0, true, true, 5⟩).2.lastUsed = 5 ∧
    ((5 : Int) ≠ 100) ∧
    (connectionExecute 100 true (.ok []) ⟨0, true, true, 5⟩).2.lastUsed = 100 := by
  decide

/-- **C10 (amended).** `last_used` is updated (to the completion time) by
every *successful* execution attempt of `execute`, `execute_with_format`
and `execute_iter`; a failed attempt leaves it unchanged; acquisition from
the pool never updates it (a reused connection keeps the `last_used` of
its pool entry, a fresh connection carries the constructor's 0); the
context-manager release leaves every member's `last_used` unchanged. -/
theorem last_used_updated_only_on_success :
    (∀ (now : Int) (connectOk : Bool) (rows : List (List Value)) (c : Conn),
      c.connected = true ∨ connectOk = true →
      (connectionExecute now connectOk (.ok rows) c).2.lastUsed = now) ∧
    (∀ (now : Int) (connectOk : Bool) (e : PyError) (c : Conn),
      (connectionExecute now connectOk (.error e) c).2.lastUsed = c.lastUsed) ∧
    (∀ (now : Int) (q v : List Char) (connectOk : Bool) (text : List Char) (c : Conn),
      c.connected = true ∨ connectOk = true →
      (connectionExecuteWithFormat now q v connectOk (.ok text) c).2.2.lastUsed = now) ∧
    (∀ (now : Int) (q v : List Char) (connectOk : Bool) (e : PyError) (c : Conn),
      (connectionExecuteWithFormat now q v connectOk (.error e) c).2.2.lastUsed = c.lastUsed) ∧
    (∀ (now : Int) (connectOk : Bool) (rows : List (List Value)) (c : Conn),
      c.connected = true ∨ connectOk = true →
      (connectionExecuteIter now connectOk (.ok rows) c).2.lastUsed = now) ∧
    (∀ (now : Int) (connectOk : Bool) (e : PyError) (c : Conn),
      (connectionExecuteIter now connectOk (.error e) c).2.lastUsed = c.lastUsed) ∧
    (∀ (now : Int) (s : PoolState) (c : Conn) (s' : PoolState),
      getConnection now s = .returned c s' →
      (∃ c₀ ∈ s.pool, c₀.id = c.id ∧ c.lastUsed = c₀.lastUsed) ∨
      (c.id = s.nextId ∧ c.lastUsed = 0)) ∧
    (∀ (cid : Nat) (pool : List Conn),
      (releaseConn cid pool).map Conn.lastUsed = pool.map Conn.lastUsed) := by
  refine ⟨?_, ?_, ?_, ?_, ?_, ?_, ?_, ?_⟩
  · intro now connectOk rows c hc
    rw [connectionExecute]
    split
    · rename_i h
      rcases hc with hc | hc <;> rw [hc] at h <;> simp at h
    · rfl
  · intro now connectOk e c
    rw [connectionExecute]
    split
    · rfl
    · rfl
  · intro now q v connectOk text c hc
    rw [connectionExecuteWithFormat]
    split
    · rename_i h
      rcases hc with hc | hc <;> rw [hc] at h <;> simp at h
    · rfl
  · intro now q v connectOk e c
    rw [connectionExecuteWithFormat]
    split
    · rfl
    · rfl
  · intro now connectOk rows c hc
    rw [connectionExecuteIter]
    split
    · rename_i h
      rcases hc with hc | hc <;> rw [hc] at h <;> simp at h
    · rfl
  · intro now connectOk e c
    rw [connectionExecuteIter]
    split
    · rfl
    · rfl
  · intro now s c s' hret
    rw [getConnection] at hret
    split at hret
    · rename_i c₀r pool heq
      cases hret
      obtain ⟨-, -, -, c₀, hc₀, hfree, hceq⟩ := scanPool_reuse_spec heq
      exact Or.inl ⟨c₀, hc₀, by rw [hceq], by rw [hceq]⟩
    · split at hret
      · cases hret
        exact Or.inr ⟨rfl, rfl⟩
      · cases hret
    · split at hret
      · cases hret
        exact Or.inr ⟨rfl, rfl⟩
      · cases hret
  · intro cid pool
    induction pool with
    | nil => rfl
    | cons a rest ih =>
      simp only [releaseConn, List.map_cons] at ih ⊢
      rw [ih]
      by_cases h : a.id = cid <;> simp [h, clearInUse]

/-- Witness for C10 (amended): a successful attempt at time 100 sets
`last_used = 100`; a reused pool handout keeps the member's
`last_used`. -/
theorem last_used_updated_only_on_success_witness :
    (connectionExecute 100 true (.ok []) ⟨0, true, false, 5⟩).2.lastUsed = 100 ∧
    ((∃ c₀ ∈ ([⟨0, true, false, 50⟩] : List Conn),
        c₀.id = (⟨0, true, true, 50⟩ : Conn).id ∧
        (⟨0, true, true, 50⟩ : Conn).lastUsed = c₀.lastUsed) ∨
      ((⟨0, true, true, 50⟩ : Conn).id = 1 ∧
        (⟨0, true, true, 50⟩ : Conn).lastUsed = 0)) :=
  ⟨last_used_updated_only_on_success.1 100 true [] ⟨0, true, false, 5⟩ (Or.inl rfl),
   last_used_updated_only_on_success.2.2.2.2.2.2.1 100 ⟨[⟨0, true, false, 50⟩], 1, 3600, 1⟩
      ⟨0, true, true, 50⟩ ⟨[⟨0, true, true, 50⟩], 1, 3600, 1⟩ (by decide)⟩

end McpClickhouse
